import Mathlib

/-!
Verification of the `/posts` query-processing pipeline of the blog-post REST
API (`src/app.mjs`).  The file embeds, shallowly, the two revisions of the
`GET /posts` handler found in the source, the `GET /posts/:id` handler, and
the helper functions `validatePaginationParams` and `sanitizeString`,
together with the fragment of JavaScript string/number semantics
(`Number(...)`, `parseInt(...)`, `String.prototype.trim/toLowerCase/includes`,
`Array.prototype.slice/filter/find`, `Math.max/min/ceil`) that the handlers
rely on.  Numbers are modelled exactly (rationals plus NaN and infinities)
rather than as IEEE doubles; on the inputs considered here the two agree,
since all thresholds (1, 100, 1000000) and all concrete inputs are far below
2^53.  Character-level operations model the ASCII fragment of JavaScript's
Unicode behaviour, which covers every string occurring in the repository.
Rational arithmetic is written with `Rat.divInt` on numerators and
denominators (proved below to agree with the field operations of `ℚ`) so
that every definition evaluates by kernel reduction.
-/

/-! ## Exact rational arithmetic, in kernel-computable form -/

/-- `a + b` on `ℚ`, written with `mkRat` so that it kernel-reduces. -/
def qadd (a b : ℚ) : ℚ := mkRat (a.num * b.den + b.num * a.den) (a.den * b.den)

/-- `a - b` on `ℚ`, written with `mkRat` so that it kernel-reduces. -/
def qsub (a b : ℚ) : ℚ := mkRat (a.num * b.den - b.num * a.den) (a.den * b.den)

/-- `a * b` on `ℚ`, written with `mkRat` so that it kernel-reduces. -/
def qmul (a b : ℚ) : ℚ := mkRat (a.num * b.num) (a.den * b.den)

/-- `a / b` on `ℚ`, written with `Rat.divInt` so that it kernel-reduces. -/
def qdiv (a b : ℚ) : ℚ := Rat.divInt (a.num * b.den) (a.den * b.num)

theorem qadd_eq (a b : ℚ) : qadd a b = a + b := (Rat.add_def' a b).symm

theorem qsub_eq (a b : ℚ) : qsub a b = a - b := (Rat.sub_def' a b).symm

theorem qmul_eq (a b : ℚ) : qmul a b = a * b := by
  rw [qmul, Rat.mul_def, Rat.normalize_eq_mkRat]

theorem qdiv_eq (a b : ℚ) : qdiv a b = a / b := (Rat.div_def' a b).symm

/-! ## JavaScript string primitives -/

/-- The whitespace characters recognised by `String.prototype.trim` and by
`Number`/`parseInt` (ASCII part plus NBSP and BOM). -/
def isJsWhitespaceChar (c : Char) : Bool :=
  c == ' ' || c == '\t' || c == '\n' || c == '\r' ||
  c == Char.ofNat 11 || c == Char.ofNat 12 ||
  c == Char.ofNat 0xA0 || c == Char.ofNat 0xFEFF

/-- `trim` on a character list: drop whitespace from both ends. -/
def jsTrimList (cs : List Char) : List Char :=
  ((cs.dropWhile isJsWhitespaceChar).reverse.dropWhile isJsWhitespaceChar).reverse

/-- JavaScript `String.prototype.trim`. -/
def jsTrim (s : String) : String := ⟨jsTrimList s.data⟩

/-- JavaScript `String.prototype.toLowerCase` (ASCII fragment). -/
def jsToLower (s : String) : String := ⟨s.data.map Char.toLower⟩

/-- `sanitizeString` from `src/app.mjs` (lines 88-91):
`str.trim().toLowerCase()`.  The `typeof str !== 'string'` guard is not
modelled because the embedding is typed: every argument is a string. -/
def sanitizeString (s : String) : String := jsToLower (jsTrim s)

/-- JavaScript `hay.includes(needle)`:
some suffix of `hay` starts with `needle`. -/
def strIncludes (hay needle : String) : Bool :=
  (List.range (hay.data.length + 1)).any fun i =>
    needle.data.isPrefixOf (hay.data.drop i)

/-! ## JavaScript numbers -/

/-- A JavaScript number as relevant to the handlers: `NaN`, a signed
infinity (`inf true` is `-Infinity`), or a finite value (modelled exactly
as a rational). -/
inductive JSNum where
  | nan : JSNum
  | inf : Bool → JSNum
  | val : ℚ → JSNum
deriving DecidableEq

namespace JSNum

/-- JavaScript truthiness of a number: `NaN` and `0` are falsy. -/
def toBool : JSNum → Bool
  | nan => false
  | inf _ => true
  | val q => q != 0

def isNaN : JSNum → Bool
  | nan => true
  | _ => false

/-- `x || c` for a numeric literal `c`: `x` when truthy, else `c`. -/
def orVal (x : JSNum) (c : ℚ) : JSNum :=
  if x.toBool then x else val c

/-- JavaScript `<` on numbers (`false` whenever `NaN` is involved). -/
def ltB : JSNum → JSNum → Bool
  | nan, _ => false
  | _, nan => false
  | inf true, inf true => false
  | inf true, inf false => true
  | inf true, val _ => true
  | inf false, _ => false
  | val _, inf true => false
  | val _, inf false => true
  | val a, val b => a < b

/-- JavaScript `>` on numbers. -/
def gtB (x y : JSNum) : Bool := ltB y x

/-- JavaScript addition. -/
def add : JSNum → JSNum → JSNum
  | nan, _ => nan
  | _, nan => nan
  | inf a, inf b => if a == b then inf a else nan
  | inf a, val _ => inf a
  | val _, inf b => inf b
  | val a, val b => val (qadd a b)

/-- JavaScript subtraction. -/
def sub : JSNum → JSNum → JSNum
  | nan, _ => nan
  | _, nan => nan
  | inf a, inf b => if a == b then nan else inf a
  | inf a, val _ => inf a
  | val _, inf b => inf !b
  | val a, val b => val (qsub a b)

/-- JavaScript multiplication (signed zeros are not distinguished; the
handlers never multiply an infinity by zero on a reachable path). -/
def mul : JSNum → JSNum → JSNum
  | nan, _ => nan
  | _, nan => nan
  | inf a, inf b => inf (a != b)
  | inf a, val q => if q == 0 then nan else inf (a != decide (q < 0))
  | val q, inf b => if q == 0 then nan else inf (b != decide (q < 0))
  | val a, val b => val (qmul a b)

/-- JavaScript division (signed zeros are not distinguished). -/
def div : JSNum → JSNum → JSNum
  | nan, _ => nan
  | _, nan => nan
  | inf _, inf _ => nan
  | inf a, val q => inf (a != decide (q < 0))
  | val _, inf _ => val 0
  | val a, val b =>
    if b == 0 then (if a == 0 then nan else inf (a < 0)) else val (qdiv a b)

/-- JavaScript `Math.ceil`. -/
def ceil : JSNum → JSNum
  | nan => nan
  | inf b => inf b
  | val q => val (q.ceil : ℤ)

/-- JavaScript `Math.max` (`NaN`-propagating). -/
def maxJ : JSNum → JSNum → JSNum
  | nan, _ => nan
  | _, nan => nan
  | inf false, _ => inf false
  | _, inf false => inf false
  | inf true, y => y
  | x, inf true => x
  | val a, val b => val (max a b)

/-- JavaScript `Math.min` (`NaN`-propagating). -/
def minJ : JSNum → JSNum → JSNum
  | nan, _ => nan
  | _, nan => nan
  | inf true, _ => inf true
  | _, inf true => inf true
  | inf false, y => y
  | x, inf false => x
  | val a, val b => val (min a b)

end JSNum

/-! ## `Number(...)` and `parseInt(...)` -/

def hexDigitVal (c : Char) : Option ℕ :=
  if '0' ≤ c ∧ c ≤ '9' then some (c.toNat - 48)
  else if 'a' ≤ c ∧ c ≤ 'f' then some (c.toNat - 87)
  else if 'A' ≤ c ∧ c ≤ 'F' then some (c.toNat - 55)
  else none

def octDigitVal (c : Char) : Option ℕ :=
  if '0' ≤ c ∧ c ≤ '7' then some (c.toNat - 48) else none

def binDigitVal (c : Char) : Option ℕ :=
  if c = '0' ∨ c = '1' then some (c.toNat - 48) else none

/-- Value of a non-empty, all-digit character list in the given base;
`none` if the list is empty or has a non-digit. -/
def parseRadix (f : Char → Option ℕ) (base : ℕ) (cs : List Char) : Option ℕ :=
  match cs with
  | [] => none
  | _ => cs.foldl (fun acc c => do
      let a ← acc
      let d ← f c
      pure (base * a + d)) (some 0)

def splitDigits (cs : List Char) : List Char × List Char :=
  (cs.takeWhile Char.isDigit, cs.dropWhile Char.isDigit)

def natOfDigits (ds : List Char) : ℕ :=
  ds.foldl (fun a c => 10 * a + (c.toNat - 48)) 0

/-- The optional exponent tail of a decimal literal (`""`, or `e`/`E`
followed by an optionally signed digit string consuming the rest). -/
def parseExpTail : List Char → Option ℤ
  | [] => some 0
  | c :: rest =>
    if c == 'e' || c == 'E' then
      let (neg, r2) : Bool × List Char :=
        match rest with
        | '-' :: r => (true, r)
        | '+' :: r => (false, r)
        | r => (false, r)
      let (ds, r3) := splitDigits r2
      if ds = [] ∨ r3 ≠ [] then none
      else some ((if neg then -1 else 1) * (natOfDigits ds : ℤ))
    else none

/-- The exact value of the decimal literal with integer-part digits `ip`,
fraction digits `fp` and exponent `e`, i.e. the rational
`(ip + fp / 10^|fp|) * 10^e`, written mantissa/exponent style
(`m = ip·10^|fp| + fp`, exponent `e - |fp|`) so that it kernel-reduces. -/
def decValue (ip fp : List Char) (e : ℤ) : ℚ :=
  let m : ℕ := natOfDigits ip * 10 ^ fp.length + natOfDigits fp
  let e2 : ℤ := e - fp.length
  if 0 ≤ e2 then ((m * 10 ^ e2.toNat : ℕ) : ℚ)
  else Rat.divInt m (10 ^ (-e2).toNat)

/-- An unsigned decimal literal: `digits [. digits] [exp]` or `. digits [exp]`,
consuming the whole list. -/
def parseDecCore (cs : List Char) : Option ℚ :=
  let (ip, rest) := splitDigits cs
  match rest with
  | '.' :: rest2 =>
    let (fp, rest3) := splitDigits rest2
    if ip = [] ∧ fp = [] then none
    else do
      let e ← parseExpTail rest3
      pure (decValue ip fp e)
  | _ =>
    if ip = [] then none
    else do
      let e ← parseExpTail rest
      pure (decValue ip [] e)

/-- JavaScript `Number(s)` on a string (ECMA `StringNumericLiteral`):
trimmed empty string is `0`; hex/octal/binary literals; otherwise an
optionally signed decimal literal or `Infinity`; anything else is `NaN`. -/
def jsNumber (s : String) : JSNum :=
  match jsTrimList s.data with
  | [] => .val 0
  | '0' :: 'x' :: r => (parseRadix hexDigitVal 16 r).elim .nan (fun n => .val n)
  | '0' :: 'X' :: r => (parseRadix hexDigitVal 16 r).elim .nan (fun n => .val n)
  | '0' :: 'o' :: r => (parseRadix octDigitVal 8 r).elim .nan (fun n => .val n)
  | '0' :: 'O' :: r => (parseRadix octDigitVal 8 r).elim .nan (fun n => .val n)
  | '0' :: 'b' :: r => (parseRadix binDigitVal 2 r).elim .nan (fun n => .val n)
  | '0' :: 'B' :: r => (parseRadix binDigitVal 2 r).elim .nan (fun n => .val n)
  | t =>
    let (neg, core) : Bool × List Char :=
      match t with
      | '-' :: r => (true, r)
      | '+' :: r => (false, r)
      | r => (false, r)
    if core = "Infinity".data then .inf neg
    else
      match parseDecCore core with
      | some q => .val (if neg then -q else q)
      | none => .nan

/-- `Number(x)` where `x` is an optional string (`undefined` gives `NaN`). -/
def jsNumberOpt : Option String → JSNum
  | none => .nan
  | some s => jsNumber s

/-- JavaScript `parseInt(s, 10)`: skip leading whitespace, optional sign,
then the longest digit prefix; `none` models `NaN`. -/
def jsParseInt (s : String) : Option ℤ :=
  let t := s.data.dropWhile isJsWhitespaceChar
  let (neg, t2) : Bool × List Char :=
    match t with
    | '-' :: r => (true, r)
    | '+' :: r => (false, r)
    | r => (false, r)
  let ds := t2.takeWhile Char.isDigit
  if ds = [] then none
  else some ((if neg then -1 else 1) * (natOfDigits ds : ℤ))

/-! ## Data model -/

/-- A blog post record (`src/db/index.mjs` seed shape). -/
structure Post where
  id : ℤ
  title : String
  description : String
  content : String
  category : String
deriving DecidableEq

/-- The query parameters of a `GET /posts` request as Express delivers them:
an absent parameter is `none` (JS `undefined`), `?page=` is `some ""`. -/
structure Query where
  page : Option String
  limit : Option String
  category : Option String
  keyword : Option String
deriving DecidableEq

/-- JS truthiness of an optional string (`undefined` and `""` are falsy). -/
def truthyOpt : Option String → Bool
  | none => false
  | some s => s != ""

/-! ## The hardened `/posts` handler (`src/app.mjs` lines 101-190) -/

/-- `validatePaginationParams` (`src/app.mjs` lines 63-85): collect the
applicable error messages for the raw `page` and `limit` parameters. -/
def validatePaginationParams (page limit : Option String) : List String :=
  (match page with
    | none => []
    | some p =>
      let n := jsNumber p
      (if n.isNaN || n.ltB (.val 1) then ["Page must be a positive number"] else []) ++
      (if n.gtB (.val 1000000) then ["Page number too large"] else []))
  ++
  (match limit with
    | none => []
    | some l =>
      let n := jsNumber l
      (if n.isNaN || n.ltB (.val 1) then ["Limit must be a positive number"] else []) ++
      (if n.gtB (.val 100) then ["Limit cannot exceed 100"] else []))

/-- The early oversized check of the handler (lines 106-116):
`x && !isNaN(Number(x)) && Number(x) > 1000000`. -/
def oversizedParam (x : Option String) : Bool :=
  truthyOpt x && !(jsNumberOpt x).isNaN && (jsNumberOpt x).gtB (.val 1000000)

/-- The category-filter stage (lines 132-140): when `category` is truthy and
sanitizes to a non-empty string, keep the posts whose sanitized category
equals it. -/
def applyCategoryFilter (posts : List Post) (category : Option String) : List Post :=
  if truthyOpt category then
    let sc := sanitizeString (category.getD "")
    if sc ≠ "" then posts.filter (fun p => sanitizeString p.category == sc)
    else posts
  else posts

/-- A post matches the sanitized keyword `sk` when `sk` occurs in its
sanitized title, description, content or category (lines 146-152). -/
def keywordMatches (sk : String) (p : Post) : Bool :=
  strIncludes (sanitizeString p.title) sk ||
  strIncludes (sanitizeString p.description) sk ||
  strIncludes (sanitizeString p.content) sk ||
  strIncludes (sanitizeString p.category) sk

/-- The keyword-filter stage (lines 142-158).  `none` models the early
`400 "Keyword must be at least 2 characters long"` return.  The
`truthyOpt keyword` conjunct of the source's `else if` is dropped because it
already holds in that branch. -/
def applyKeywordFilter (posts : List Post) (keyword : Option String) :
    Option (List Post) :=
  if truthyOpt keyword then
    let k := keyword.getD ""
    let sk := sanitizeString k
    if sk ≠ "" ∧ 2 ≤ sk.length then some (posts.filter (keywordMatches sk))
    else if (jsTrim k).length < 2 then none
    else some posts
  else some posts

/-- `ToIntegerOrInfinity` plus the index clamping of `Array.prototype.slice`:
truncate toward zero; a negative index counts from the end; clamp to
`[0, len]`. -/
def jsToIdx (x : JSNum) (len : ℕ) : ℕ :=
  match x with
  | .nan => 0
  | .inf b => if b then 0 else len
  | .val q =>
    let i : ℤ := if q < 0 then q.ceil else q.floor
    if i < 0 then ((len : ℤ) + i).toNat else min i.toNat len

/-- JavaScript `l.slice(s, e)`: the elements from index `s` (inclusive) to
`e` (exclusive) after index resolution. -/
def jsSlice (l : List Post) (s e : JSNum) : List Post :=
  (l.take (jsToIdx e l.length)).drop (jsToIdx s l.length)

/-- The success payload of the hardened handler (lines 164-180).
`nextPage`/`previousPage` are `none` when the corresponding key is absent
from the response object. -/
structure PageResult where
  totalPosts : ℕ
  totalPages : JSNum
  currentPage : JSNum
  limit : JSNum
  posts : List Post
  hasNextPage : Bool
  hasPreviousPage : Bool
  nextPage : Option JSNum
  previousPage : Option JSNum
deriving DecidableEq

/-- The pagination stage of the hardened handler (lines 160-181), applied to
the filtered posts and the effective `numPage`/`numLimit`. -/
def jsPaginate (filteredPosts : List Post) (numPage numLimit : JSNum) : PageResult :=
  let startIndex := (numPage.sub (.val 1)).mul numLimit
  let endIndex := startIndex.add numLimit
  let totalPages := ((JSNum.val (filteredPosts.length : ℚ)).div numLimit).ceil
  let hasNext := endIndex.ltB (.val (filteredPosts.length : ℚ))
  let hasPrev := (JSNum.val 0).ltB startIndex
  ⟨filteredPosts.length, totalPages, numPage, numLimit,
    jsSlice filteredPosts startIndex endIndex, hasNext, hasPrev,
    if hasNext then some (numPage.add (.val 1)) else none,
    if hasPrev then some (numPage.sub (.val 1)) else none⟩

/-- Outcome of the hardened `GET /posts` handler.  `oversized` is the
`400 "Pagination values too large"` response, `invalidParams` the
`400 "Invalid pagination parameters"` response with its `details` list,
`keywordTooShort` the `400 "Keyword must be at least 2 characters long"`
response. -/
inductive PostsResult where
  | oversized : PostsResult
  | invalidParams : List String → PostsResult
  | keywordTooShort : PostsResult
  | ok : PageResult → PostsResult
deriving DecidableEq

/-- The hardened `GET /posts` handler (`src/app.mjs` lines 101-190) as a
function of the post collection and the request query. -/
def getPostsHandler (blogPosts : List Post) (q : Query) : PostsResult :=
  if oversizedParam q.page then .oversized
  else if oversizedParam q.limit then .oversized
  else
    let validationErrors := validatePaginationParams q.page q.limit
    if validationErrors.length > 0 then .invalidParams validationErrors
    else
      let numPage := JSNum.maxJ (.val 1) ((jsNumberOpt q.page).orVal 1)
      let numLimit := JSNum.maxJ (.val 1) (JSNum.minJ (.val 100) ((jsNumberOpt q.limit).orVal 6))
      let filtered1 := applyCategoryFilter blogPosts q.category
      match applyKeywordFilter filtered1 q.keyword with
      | none => .keywordTooShort
      | some filteredPosts => .ok (jsPaginate filteredPosts numPage numLimit)

/-- The HTTP status the hardened handler attaches to each outcome. -/
def statusNew : PostsResult → ℕ
  | .oversized => 400
  | .invalidParams _ => 400
  | .keywordTooShort => 400
  | .ok _ => 200

/-- The posts list sent back on success (empty on error outcomes). -/
def resultPosts : PostsResult → List Post
  | .ok r => r.posts
  | _ => []

/-! ## The earlier revision of the `/posts` handler
(the second copy of `app.mjs` in the repository, lines 305-374) -/

/-- Success payload of the earlier revision (its lines 352-358): no
`hasNextPage`/`hasPreviousPage` fields; `nextPage`/`previousPage` are
attached under the same conditions. -/
structure OldPageResult where
  totalPosts : ℕ
  totalPages : JSNum
  currentPage : JSNum
  limit : JSNum
  posts : List Post
  nextPage : Option JSNum
  previousPage : Option JSNum
deriving DecidableEq

/-- Outcome of the earlier revision: `invalidParams` is its
`400 "Invalid pagination parameters"` response and `oversized` its
`500 "Pagination values too large"` response. -/
inductive OldPostsResult where
  | invalidParams : OldPostsResult
  | oversized : OldPostsResult
  | ok : OldPageResult → OldPostsResult
deriving DecidableEq

/-- The earlier revision's `GET /posts` handler.  Its validation is
`page && isNaN(Number(page)) || limit && isNaN(Number(limit))` (`&&` binds
tighter than `||`); the oversized check runs after defaulting/clamping and
answers 500; the category filter compares lower-cased (untrimmed) strings
and starts again from `blogPosts`; the keyword filter has no minimum
length. -/
def getPostsHandlerOld (blogPosts : List Post) (q : Query) : OldPostsResult :=
  let page := q.page
  let limit := q.limit
  let category := q.category.getD ""
  let keyword := q.keyword.getD ""
  if (truthyOpt page && (jsNumberOpt page).isNaN) ||
     (truthyOpt limit && (jsNumberOpt limit).isNaN) then .invalidParams
  else
    let numPage := (jsNumberOpt page).orVal 1
    let numLimit := (jsNumberOpt limit).orVal 6
    let safePage := JSNum.maxJ (.val 1) numPage
    let safeLimit := JSNum.maxJ (.val 1) (JSNum.minJ (.val 100) numLimit)
    if safePage.gtB (.val 1000000) || safeLimit.gtB (.val 1000000) then .oversized
    else
      let filtered1 := if category ≠ "" then
          blogPosts.filter (fun p => jsToLower p.category == jsToLower category)
        else blogPosts
      let filteredPosts := if keyword ≠ "" then
          filtered1.filter (fun p =>
            strIncludes (jsToLower p.title) (jsToLower keyword) ||
            strIncludes (jsToLower p.description) (jsToLower keyword) ||
            strIncludes (jsToLower p.content) (jsToLower keyword) ||
            strIncludes (jsToLower p.category) (jsToLower keyword))
        else filtered1
      let startIndex := (safePage.sub (.val 1)).mul safeLimit
      let endIndex := startIndex.add safeLimit
      .ok ⟨filteredPosts.length,
        ((JSNum.val (filteredPosts.length : ℚ)).div safeLimit).ceil,
        safePage, safeLimit,
        jsSlice filteredPosts startIndex endIndex,
        if endIndex.ltB (.val (filteredPosts.length : ℚ)) then
          some (safePage.add (.val 1)) else none,
        if (JSNum.val 0).ltB startIndex then
          some (safePage.sub (.val 1)) else none⟩

/-- The HTTP status the earlier revision attaches to each outcome. -/
def statusOld : OldPostsResult → ℕ
  | .invalidParams => 400
  | .oversized => 500
  | .ok _ => 200

/-! ## The `GET /posts/:id` handler (`src/app.mjs` lines 192-227) -/

/-- Outcome of the id lookup: `invalidId` is the 400 response with its
`message`, `notFound` the 404 response carrying `requestedId`
(`none` models `requestedId: NaN`). -/
inductive PostByIdResult where
  | invalidId : String → PostByIdResult
  | notFound : Option ℤ → PostByIdResult
  | ok : Post → PostByIdResult
deriving DecidableEq

/-- The hardened `GET /posts/:id` handler.  `!id || isNaN(Number(id))`
rejects first; then `postId = parseInt(id, 10)` and
`postId < 1 || postId > 1000000` rejects (both comparisons are false when
`postId` is NaN, modelled by the `none` branch); then the first post with
matching `id` is returned, else 404 with the requested id. -/
def getPostById (blogPosts : List Post) (id : String) : PostByIdResult :=
  if id = "" ∨ (jsNumber id).isNaN then .invalidId "Post ID must be a valid number"
  else
    let postId := jsParseInt id
    if (match postId with
        | some v => decide (v < 1) || decide (1000000 < v)
        | none => false) then .invalidId "Post ID out of valid range"
    else
      match blogPosts.find? (fun p =>
          match postId with | some v => p.id == v | none => false) with
      | none => .notFound postId
      | some post => .ok post

/-! ## Pagination under the integer data model -/

/-- `PageResult` with the numeric fields at their integer values, for
stating the pagination properties over integer effective page and limit. -/
structure Paged where
  totalPosts : ℕ
  totalPages : ℕ
  currentPage : ℕ
  limit : ℕ
  posts : List Post
  hasNextPage : Bool
  hasPreviousPage : Bool
  nextPage : Option ℕ
  previousPage : Option ℕ
deriving DecidableEq

/-- The pagination formulas of lines 160-181 under the integer data model of
the spec (`page`, `limit` positive integers): `startIndex = (P-1)·L`,
`endIndex = startIndex + L`, `totalPages = ceil(N / L)`, posts
`slice(startIndex, endIndex)`, `hasNextPage = endIndex < N`,
`hasPreviousPage = startIndex > 0`, `nextPage`/`previousPage` attached only
when the flags hold.  `paginate_eq_jsPaginate` below proves this agrees with
the handler's `jsPaginate` at integer values. -/
def paginate (filteredPosts : List Post) (numPage numLimit : ℕ) : Paged :=
  let startIndex := (numPage - 1) * numLimit
  let endIndex := startIndex + numLimit
  let totalPages := (qdiv (filteredPosts.length : ℚ) (numLimit : ℚ)).ceil.toNat
  let hasNext := decide (endIndex < filteredPosts.length)
  let hasPrev := decide (0 < startIndex)
  ⟨filteredPosts.length, totalPages, numPage, numLimit,
    (filteredPosts.take endIndex).drop startIndex, hasNext, hasPrev,
    if endIndex < filteredPosts.length then some (numPage + 1) else none,
    if 0 < startIndex then some (numPage - 1) else none⟩

/-! ## Sequences of invocations -/

/-- The observable output of one API invocation. -/
inductive CallOutput where
  | listing : PostsResult → CallOutput
  | byId : PostByIdResult → CallOutput
deriving DecidableEq

/-- One invocation of the read API: a `/posts` listing with some query, or a
`/posts/:id` lookup. -/
inductive ApiCall where
  | listPosts : Query → ApiCall
  | getPost : String → ApiCall
deriving DecidableEq

/-- Run one call against the shared collection, returning the response and
the collection state afterwards.  The handlers only copy
(`[...blogPosts]`) and derive new arrays (`filter`/`slice`/`find`), so the
state component is the input collection itself. -/
def runCall (c : ApiCall) (blogPosts : List Post) : CallOutput × List Post :=
  match c with
  | .listPosts q => (.listing (getPostsHandler blogPosts q), blogPosts)
  | .getPost i => (.byId (getPostById blogPosts i), blogPosts)

/-- The collection state after a sequence of invocations. -/
def runCalls (cs : List ApiCall) (blogPosts : List Post) : List Post :=
  cs.foldl (fun s c => (runCall c s).2) blogPosts

/-! ## The filter as claim C5 words it -/

/-- The category-plus-keyword filter exactly as claim C5 states it, for
comparison with the code's filter stages: keep the posts whose category
equals the supplied category after trimming and lower-casing both sides,
then keep those whose lower-cased keyword is a substring of the lower-cased
title, description, content or category (the keyword is not trimmed). -/
def claimC5Filter (posts : List Post) (category keyword : String) : List Post :=
  (posts.filter (fun p =>
      jsToLower (jsTrim p.category) == jsToLower (jsTrim category))).filter
    (fun p =>
      strIncludes (jsToLower p.title) (jsToLower keyword) ||
      strIncludes (jsToLower p.description) (jsToLower keyword) ||
      strIncludes (jsToLower p.content) (jsToLower keyword) ||
      strIncludes (jsToLower p.category) (jsToLower keyword))

/-- A stub post, used for concrete instances of the universally quantified
theorems. -/
def samplePost (n : ℕ) : Post := ⟨n, "t", "d", "c", "g"⟩

/-- A collection of `n` stub posts. -/
def samplePosts (n : ℕ) : List Post := (List.range n).map samplePost

/-! ## Helper lemmas -/

theorem rat_ceil_eq (q : ℚ) : q.ceil = ⌈q⌉ := by
  have hceil : q.ceil = if q.den = 1 then q.num else q.num / q.den + 1 := rfl
  have hfloor : (⌊q⌋ : ℤ) = if q.den = 1 then q.num else q.num / q.den := rfl
  by_cases h : q.den = 1
  · rw [hceil, if_pos h]
    have hq : (q.num : ℚ) = q := (Rat.den_eq_one_iff q).mp h
    conv_rhs => rw [← hq]
    rw [Int.ceil_intCast]
  · have hne : ((⌊q⌋ : ℤ) : ℚ) ≠ q := fun hint => h (by rw [← hint]; exact Rat.den_intCast ⌊q⌋)
    have hlt : ((⌊q⌋ : ℤ) : ℚ) < q := lt_of_le_of_ne (Int.floor_le q) hne
    have hc : ⌈q⌉ = ⌊q⌋ + 1 := by
      rw [Int.ceil_eq_iff]
      refine ⟨?_, ?_⟩
      · push_cast
        rw [add_sub_cancel_right]
        exact hlt
      · push_cast
        exact (Int.lt_floor_add_one q).le
    rw [hc, hceil, if_neg h, hfloor, if_neg h]

theorem ceil_div_nat (N L : ℕ) (hL : 0 < L) :
    (qdiv (N : ℚ) (L : ℚ)).ceil = ((N + L - 1) / L : ℕ) := by
  rw [qdiv_eq, rat_ceil_eq]
  have hL' : (0 : ℚ) < (L : ℚ) := by exact_mod_cast hL
  have key : L * ((N + L - 1) / L) + (N + L - 1) % L + 1 = N + L := by
    rw [Nat.div_add_mod (N + L - 1) L, Nat.sub_add_cancel (by omega)]
  have hmod : (N + L - 1) % L < L := Nat.mod_lt _ hL
  set D := (N + L - 1) / L with hD
  set R := (N + L - 1) % L with hR
  have keyQ : (L : ℚ) * D + R + 1 = N + L := by exact_mod_cast key
  have hmodQ : (R : ℚ) + 1 ≤ L := by exact_mod_cast hmod
  rw [Int.ceil_eq_iff]
  constructor
  · push_cast
    rw [lt_div_iff₀ hL', show ((D : ℚ) - 1) * L = L * D - L from by ring]
    linarith [(by positivity : (0 : ℚ) ≤ (R : ℚ))]
  · push_cast
    rw [div_le_iff₀ hL', show ((D : ℚ)) * L = L * D from by ring]
    linarith

theorem paginate_totalPages_eq (filtered : List Post) (P L : ℕ) (hL : 0 < L) :
    (paginate filtered P L).totalPages = (filtered.length + L - 1) / L := by
  simp only [paginate]
  rw [ceil_div_nat _ _ hL, Int.toNat_natCast]

theorem jsToLower_length (s : String) : (jsToLower s).length = s.length := by
  show (s.data.map Char.toLower).length = s.data.length
  simp

theorem sanitizeString_length (s : String) : (sanitizeString s).length = (jsTrim s).length := by
  rw [sanitizeString, jsToLower_length]

theorem string_ne_empty_of_pos {s : String} (h : 0 < s.length) : s ≠ "" := by
  intro he
  rw [he] at h
  exact absurd h (by decide)

/-! ## Claim theorems: pagination (C1, C3, C6) -/

/-- C1: for every filtered sequence, effective page `P ≥ 1` and effective
limit `L ∈ [1, 100]`, the returned posts are the sub-sequence
`[(P-1)·L, (P-1)·L + L)` clipped to the available elements (empty when the
start index is past the end); `hasNextPage` holds iff `(P-1)·L + L < N`,
`hasPreviousPage` iff `(P-1)·L > 0`; `nextPage = P+1` and
`previousPage = P-1` are attached exactly when the respective flag is true;
and a page past the last page is not an error: it yields the empty list with
`currentPage` echoing the requested page, not clamped. -/
theorem c1_pagination_window (filtered : List Post) (P L : ℕ)
    (hP : 1 ≤ P) (hL1 : 1 ≤ L) (hL2 : L ≤ 100) :
    (paginate filtered P L).posts = (filtered.drop ((P - 1) * L)).take L ∧
    (filtered.length ≤ (P - 1) * L → (paginate filtered P L).posts = []) ∧
    ((paginate filtered P L).hasNextPage = true ↔ (P - 1) * L + L < filtered.length) ∧
    ((paginate filtered P L).hasPreviousPage = true ↔ 0 < (P - 1) * L) ∧
    (paginate filtered P L).nextPage =
      (if (P - 1) * L + L < filtered.length then some (P + 1) else none) ∧
    (paginate filtered P L).previousPage =
      (if 0 < (P - 1) * L then some (P - 1) else none) ∧
    (paginate filtered P L).currentPage = P ∧
    (paginate filtered P L).limit = L := by
  have hposts : (paginate filtered P L).posts = (filtered.drop ((P - 1) * L)).take L := by
    simp only [paginate]
    rw [List.drop_take ((P - 1) * L + L) ((P - 1) * L) filtered, Nat.add_sub_cancel_left]
  refine ⟨hposts, ?_, ?_, ?_, rfl, rfl, rfl, rfl⟩
  · intro h
    rw [hposts, List.drop_eq_nil_of_le h, List.take_nil]
  · simp only [paginate]
    exact decide_eq_true_iff
  · simp only [paginate]
    exact decide_eq_true_iff

theorem c1_pagination_window_witness :
    1 ≤ 3 ∧ 1 ≤ 2 ∧ 2 ≤ 100 ∧
    ((paginate (samplePosts 5) 3 2).posts = ((samplePosts 5).drop ((3 - 1) * 2)).take 2 ∧
     ((samplePosts 5).length ≤ (3 - 1) * 2 → (paginate (samplePosts 5) 3 2).posts = []) ∧
     ((paginate (samplePosts 5) 3 2).hasNextPage = true ↔
        (3 - 1) * 2 + 2 < (samplePosts 5).length) ∧
     ((paginate (samplePosts 5) 3 2).hasPreviousPage = true ↔ 0 < (3 - 1) * 2) ∧
     (paginate (samplePosts 5) 3 2).nextPage =
       (if (3 - 1) * 2 + 2 < (samplePosts 5).length then some (3 + 1) else none) ∧
     (paginate (samplePosts 5) 3 2).previousPage =
       (if 0 < (3 - 1) * 2 then some (3 - 1) else none) ∧
     (paginate (samplePosts 5) 3 2).currentPage = 3 ∧
     (paginate (samplePosts 5) 3 2).limit = 2) :=
  ⟨by decide, by decide, by decide,
    c1_pagination_window (samplePosts 5) 3 2 (by decide) (by decide) (by decide)⟩

/-- C3 fails as stated: with 3 posts, limit 6 and requested page 2, the page
is valid (`P ≥ 1`, `L ∈ [1,100]`), the last page of the filtered result is
page 1 (`totalPages = 1`), so page 2 is not the last page, yet the returned
posts list has length 0, not `L = 6`. -/
theorem c3_counterexample :
    (paginate (samplePosts 3) 2 6).totalPages = 1 ∧
    (2 : ℕ) ≠ (paginate (samplePosts 3) 2 6).totalPages ∧
    (paginate (samplePosts 3) 2 6).posts.length = 0 ∧
    (paginate (samplePosts 3) 2 6).posts.length ≠ 6 := by
  refine ⟨by decide, by decide, by decide, by decide⟩

/-- C3, amended: for all valid `P ≥ 1` and `L ∈ [1,100]`,
`posts.length ≤ L`, and `posts.length = L` whenever `P` is strictly before
the last page (`P < totalPages`); on the last page or past it the list may
be shorter. -/
theorem c3_page_size (filtered : List Post) (P L : ℕ)
    (hP : 1 ≤ P) (hL1 : 1 ≤ L) (hL2 : L ≤ 100) :
    (paginate filtered P L).posts.length ≤ L ∧
    (P < (paginate filtered P L).totalPages →
      (paginate filtered P L).posts.length = L) := by
  have hlen : (paginate filtered P L).posts.length =
      min ((P - 1) * L + L) filtered.length - (P - 1) * L := by
    simp only [paginate]
    rw [List.length_drop, List.length_take]
  constructor
  · rw [hlen]
    omega
  · intro hlt
    rw [paginate_totalPages_eq filtered P L hL1] at hlt
    have hmul : (P + 1) * L ≤ filtered.length + L - 1 :=
      (Nat.le_div_iff_mul_le hL1).mp hlt
    rw [hlen]
    have hexp : (P - 1) * L = P * L - L := by
      rw [Nat.sub_mul, Nat.one_mul]
    have hPL : L ≤ P * L := Nat.le_mul_of_pos_left L hP
    rw [hexp]
    have h2 : P * L + L ≤ filtered.length + L - 1 := by
      calc P * L + L = (P + 1) * L := by ring
        _ ≤ filtered.length + L - 1 := hmul
    omega

theorem c3_page_size_witness :
    1 ≤ 2 ∧ 1 ≤ 3 ∧ 3 ≤ 100 ∧
    ((paginate (samplePosts 10) 2 3).posts.length ≤ 3 ∧
     (2 < (paginate (samplePosts 10) 2 3).totalPages →
       (paginate (samplePosts 10) 2 3).posts.length = 3)) :=
  ⟨by decide, by decide, by decide,
    c3_page_size (samplePosts 10) 2 3 (by decide) (by decide) (by decide)⟩

/-- C6: for every filtered result, `totalPages` is the ceiling of
`totalPosts / limit` (stated both with `⌈·⌉` and in the equivalent
`(N + L - 1) / L` integer form), and `totalPosts = 0` implies
`totalPages = 0`. -/
theorem c6_total_pages (filtered : List Post) (P L : ℕ) (hL : 1 ≤ L) :
    (paginate filtered P L).totalPosts = filtered.length ∧
    (paginate filtered P L).limit = L ∧
    (((paginate filtered P L).totalPages : ℤ) =
      ⌈((paginate filtered P L).totalPosts : ℚ) / (L : ℚ)⌉) ∧
    (paginate filtered P L).totalPages = (filtered.length + L - 1) / L ∧
    ((paginate filtered P L).totalPosts = 0 → (paginate filtered P L).totalPages = 0) := by
  have htp : (paginate filtered P L).totalPages = (filtered.length + L - 1) / L :=
    paginate_totalPages_eq filtered P L hL
  have htot : (paginate filtered P L).totalPosts = filtered.length := rfl
  refine ⟨rfl, rfl, ?_, htp, ?_⟩
  · rw [htot, htp, ← qdiv_eq, ← rat_ceil_eq, ceil_div_nat _ _ hL]
  · intro h0
    rw [htot] at h0
    rw [htp, h0]
    have : L - 1 < L := by omega
    simp [Nat.div_eq_of_lt this]

theorem c6_total_pages_witness :
    1 ≤ 3 ∧
    ((paginate (samplePosts 7) 1 3).totalPosts = (samplePosts 7).length ∧
     (paginate (samplePosts 7) 1 3).limit = 3 ∧
     (((paginate (samplePosts 7) 1 3).totalPages : ℤ) =
       ⌈((paginate (samplePosts 7) 1 3).totalPosts : ℚ) / (3 : ℚ)⌉) ∧
     (paginate (samplePosts 7) 1 3).totalPages = ((samplePosts 7).length + 3 - 1) / 3 ∧
     ((paginate (samplePosts 7) 1 3).totalPosts = 0 →
       (paginate (samplePosts 7) 1 3).totalPages = 0)) :=
  ⟨by decide, c6_total_pages (samplePosts 7) 1 3 (by decide)⟩

/-! ## Claim theorems: keyword validation (C2) -/

theorem string_pos_iff_ne_empty (s : String) : 0 < s.length ↔ s ≠ "" := by
  obtain ⟨l⟩ := s
  cases l with
  | nil => exact ⟨fun h => absurd h (by decide), fun h => absurd rfl h⟩
  | cons a t =>
    refine ⟨fun _ he => ?_, fun _ => by show 0 < (a :: t).length; simp⟩
    exact List.cons_ne_nil a t (congrArg String.data he)

/-- The keyword stage errors out exactly on a truthy keyword whose trimmed
length is below 2 (including whitespace-only keywords). -/
theorem applyKeywordFilter_none_iff (posts : List Post) (s : String) :
    applyKeywordFilter posts (some s) = none ↔ s ≠ "" ∧ (jsTrim s).length < 2 := by
  rw [applyKeywordFilter]
  by_cases hs : s = ""
  · subst hs
    simp [truthyOpt]
  · rw [if_pos (by simp [truthyOpt, hs] : truthyOpt (some s) = true)]
    simp only [Option.getD_some]
    have hlen : (sanitizeString s).length = (jsTrim s).length := sanitizeString_length s
    by_cases h2 : 2 ≤ (jsTrim s).length
    · rw [if_pos ⟨string_ne_empty_of_pos (by omega), by omega⟩]
      simp only [reduceCtorEq, false_iff, not_and]
      intro _
      omega
    · rw [if_neg (by rintro ⟨-, hx⟩; omega), if_pos (by omega)]
      simp only [true_iff]
      exact ⟨hs, by omega⟩

/-- C2 fails as stated on a whitespace-only keyword: the claim says it is
treated as "no keyword filter" and is not an error, but the handler answers
the `400 "Keyword must be at least 2 characters long"` validation error. -/
theorem c2_counterexample :
    getPostsHandler [] ⟨none, none, none, some " "⟩ = .keywordTooShort := by decide

/-- C2, amended: a keyword that is absent or is the empty string applies no
filter and is not an error; a present non-empty keyword whose trimmed
length is below 2 — length 1, or 0 for a whitespace-only keyword — fails
with the "keyword must be at least 2 characters long" error. -/
theorem c2_keyword_validation (posts : List Post) (cat : Option String) (s : String) :
    (getPostsHandler posts ⟨none, none, cat, some s⟩ = .keywordTooShort ↔
      s ≠ "" ∧ (jsTrim s).length < 2) ∧
    getPostsHandler posts ⟨none, none, cat, some ""⟩ =
      getPostsHandler posts ⟨none, none, cat, none⟩ := by
  have hred : ∀ (kw : Option String), getPostsHandler posts ⟨none, none, cat, kw⟩ =
      (match applyKeywordFilter (applyCategoryFilter posts cat) kw with
        | none => PostsResult.keywordTooShort
        | some f => .ok (jsPaginate f (JSNum.maxJ (.val 1) ((jsNumberOpt none).orVal 1))
            (JSNum.maxJ (.val 1) (JSNum.minJ (.val 100) ((jsNumberOpt none).orVal 6))))) :=
    fun _ => rfl
  constructor
  · rw [hred (some s)]
    rcases hkw : applyKeywordFilter (applyCategoryFilter posts cat) (some s) with _ | f
    · simp only [hkw]
      simp only [true_iff]
      exact (applyKeywordFilter_none_iff (applyCategoryFilter posts cat) s).mp hkw
    · simp only [hkw]
      constructor
      · intro h
        exact PostsResult.noConfusion h
      · intro hcond
        have h0 := (applyKeywordFilter_none_iff (applyCategoryFilter posts cat) s).mpr hcond
        rw [hkw] at h0
        exact Option.noConfusion h0
  · rfl

/-! ## Claim theorems: filtering (C5) -/

/-- C5 fails as stated: for the single post `⟨1, "qabr", "", "", "news"⟩`
with `category = " "` (whitespace-only, hence non-empty) and
`keyword = " ab "`, the filter described by the claim keeps no post (the
trimmed category "news" differs from "", and the untrimmed lower-cased
keyword " ab " occurs in no field), yet the handler keeps the post: it
skips the category filter entirely (the category sanitizes to the empty
string) and trims the keyword to "ab", which occurs in the title. -/
theorem c5_counterexample :
    claimC5Filter [⟨1, "qabr", "", "", "news"⟩] " " " ab " = [] ∧
    applyKeywordFilter (applyCategoryFilter [⟨1, "qabr", "", "", "news"⟩] (some " "))
        (some " ab ") = some [⟨1, "qabr", "", "", "news"⟩] ∧
    resultPosts (getPostsHandler [⟨1, "qabr", "", "", "news"⟩]
        ⟨none, none, some " ", some " ab "⟩) = [⟨1, "qabr", "", "", "news"⟩] := by
  refine ⟨by decide, by decide, by decide⟩

/-- C5, amended: the category filter applies only when the category trims
to a non-empty string (an absent, empty, or whitespace-only category
filters nothing) and keeps exactly the posts whose trimmed and lower-cased
category equals the trimmed and lower-cased supplied category; the keyword
filter compares the trimmed and lower-cased keyword against the trimmed and
lower-cased title, description, content and category; the two filters
compose conjunctively (category first) and the surviving posts keep their
original relative order (the composition is a single stable filter of the
original collection). -/
theorem c5_filter_composition (posts : List Post) (c k : String)
    (hc : jsTrim c ≠ "") (hk : 2 ≤ (jsTrim k).length) :
    applyCategoryFilter posts (some c) =
      posts.filter (fun p => sanitizeString p.category == sanitizeString c) ∧
    applyKeywordFilter (applyCategoryFilter posts (some c)) (some k) =
      some (posts.filter (fun p =>
        (sanitizeString p.category == sanitizeString c) &&
          keywordMatches (sanitizeString k) p)) ∧
    (∀ c2 : String, jsTrim c2 = "" → applyCategoryFilter posts (some c2) = posts) := by
  have hcne : c ≠ "" := by
    intro he
    rw [he] at hc
    exact hc rfl
  have hsc : sanitizeString c ≠ "" := by
    rw [← string_pos_iff_ne_empty, sanitizeString_length, string_pos_iff_ne_empty]
    exact hc
  have hcat : applyCategoryFilter posts (some c) =
      posts.filter (fun p => sanitizeString p.category == sanitizeString c) := by
    rw [applyCategoryFilter, if_pos (by simp [truthyOpt, hcne] : truthyOpt (some c) = true)]
    simp only [Option.getD_some]
    rw [if_pos hsc]
  have hkne : k ≠ "" := by
    intro he
    rw [he] at hk
    exact absurd hk (by decide)
  have hsk2 : 2 ≤ (sanitizeString k).length := by
    rw [sanitizeString_length]
    exact hk
  have hskne : sanitizeString k ≠ "" := string_ne_empty_of_pos (by omega)
  refine ⟨hcat, ?_, ?_⟩
  · rw [hcat, applyKeywordFilter,
      if_pos (by simp [truthyOpt, hkne] : truthyOpt (some k) = true)]
    simp only [Option.getD_some]
    rw [if_pos ⟨hskne, hsk2⟩, List.filter_filter]
    exact congrArg some (List.filter_congr (fun a _ => Bool.and_comm _ _))
  · intro c2 h2
    rw [applyCategoryFilter]
    by_cases hc2 : c2 = ""
    · rw [if_neg (by simp [truthyOpt, hc2])]
    · rw [if_pos (by simp [truthyOpt, hc2] : truthyOpt (some c2) = true)]
      simp only [Option.getD_some]
      rw [if_neg (fun hne => hne (by rw [sanitizeString, h2]; rfl))]

theorem c5_filter_composition_witness :
    jsTrim "Tech" ≠ "" ∧ 2 ≤ (jsTrim "ab").length ∧
    (applyCategoryFilter [⟨1, "qabr", "", "", "Tech"⟩] (some "Tech") =
      [⟨1, "qabr", "", "", "Tech"⟩].filter
        (fun p => sanitizeString p.category == sanitizeString "Tech") ∧
     applyKeywordFilter (applyCategoryFilter [⟨1, "qabr", "", "", "Tech"⟩] (some "Tech"))
        (some "ab") =
      some ([⟨1, "qabr", "", "", "Tech"⟩].filter (fun p =>
        (sanitizeString p.category == sanitizeString "Tech") &&
          keywordMatches (sanitizeString "ab") p)) ∧
     (∀ c2 : String, jsTrim c2 = "" →
        applyCategoryFilter [⟨1, "qabr", "", "", "Tech"⟩] (some c2) =
          [⟨1, "qabr", "", "", "Tech"⟩])) :=
  ⟨by decide, by decide,
    c5_filter_composition [⟨1, "qabr", "", "", "Tech"⟩] "Tech" "ab" (by decide) (by decide)⟩

/-! ## Claim theorems: oversized and empty parameters (C4, C10) -/

/-- C4: a numeric `page` whose value exceeds 1,000,000 short-circuits to the
distinct "Pagination values too large" failure, before (and regardless of)
the generic validation-error collection; a numeric `limit` in
(100, 1,000,000] instead produces the generic "Invalid pagination
parameters" failure whose details are exactly the collected
`validatePaginationParams` messages, among them "Limit cannot exceed
100". -/
theorem c4_oversized_short_circuit (posts : List Post) (q : Query) :
    (∀ s v, q.page = some s → jsNumber s = .val v → (1000000 : ℚ) < v →
      getPostsHandler posts q = .oversized) ∧
    (∀ s v, q.limit = some s → jsNumber s = .val v → (100 : ℚ) < v → v ≤ 1000000 →
      oversizedParam q.page = false →
      getPostsHandler posts q = .invalidParams (validatePaginationParams q.page q.limit) ∧
        "Limit cannot exceed 100" ∈ validatePaginationParams q.page q.limit) := by
  constructor
  · intro s v hps hv hgt
    have hsne : s ≠ "" := by
      intro he
      subst he
      have h0 : (0 : ℚ) = v := JSNum.val.inj hv
      rw [← h0] at hgt
      exact absurd hgt (by norm_num)
    have hover : oversizedParam q.page = true := by
      rw [hps]
      simp [oversizedParam, truthyOpt, jsNumberOpt, hv, JSNum.isNaN, JSNum.gtB,
        JSNum.ltB, hsne, hgt]
    simp only [getPostsHandler]
    rw [if_pos hover]
  · intro s v hls hv h100 hle hpage
    have hnlt : ¬ (v < (1 : ℚ)) := by linarith
    have hlim : oversizedParam q.limit = false := by
      rw [hls]
      simp [oversizedParam, truthyOpt, jsNumberOpt, hv, JSNum.isNaN, JSNum.gtB,
        JSNum.ltB, not_lt.mpr hle]
    have hmem : "Limit cannot exceed 100" ∈ validatePaginationParams q.page q.limit := by
      rw [validatePaginationParams.eq_def, hls]
      apply List.mem_append_right
      apply List.mem_append_right
      simp [hv, JSNum.isNaN, JSNum.gtB, JSNum.ltB, h100]
    have hpos : (validatePaginationParams q.page q.limit).length > 0 :=
      List.length_pos.mpr (List.ne_nil_of_mem hmem)
    refine ⟨?_, hmem⟩
    simp only [getPostsHandler]
    rw [if_neg (by simp [hpage]), if_neg (by simp [hlim]), if_pos hpos]

theorem c4_oversized_short_circuit_witness :
    getPostsHandler [] ⟨some "2000000", none, none, none⟩ = .oversized ∧
    (getPostsHandler [] ⟨some "abc", some "500", none, none⟩ =
        .invalidParams (validatePaginationParams (some "abc") (some "500")) ∧
      "Limit cannot exceed 100" ∈ validatePaginationParams (some "abc") (some "500")) :=
  ⟨(c4_oversized_short_circuit [] ⟨some "2000000", none, none, none⟩).1 "2000000" 2000000
      rfl (by decide) (by norm_num),
   (c4_oversized_short_circuit [] ⟨some "abc", some "500", none, none⟩).2 "500" 500
      rfl (by decide) (by norm_num) (by norm_num) (by decide)⟩

/-- C10: a present-but-empty `page` parameter (`?page=`) is not treated as
absent and does not default to page 1: the handler answers the generic
validation failure with "Page must be a positive number" among the details;
likewise a present-but-empty `limit` is rejected with "Limit must be a
positive number" instead of defaulting to 6. -/
theorem c10_empty_params_rejected (posts : List Post) (q : Query) :
    (q.page = some "" → oversizedParam q.limit = false →
      getPostsHandler posts q = .invalidParams (validatePaginationParams q.page q.limit) ∧
        "Page must be a positive number" ∈ validatePaginationParams q.page q.limit) ∧
    (q.limit = some "" → oversizedParam q.page = false →
      getPostsHandler posts q = .invalidParams (validatePaginationParams q.page q.limit) ∧
        "Limit must be a positive number" ∈ validatePaginationParams q.page q.limit) := by
  constructor
  · intro hp hlim
    have hpage : oversizedParam q.page = false := by
      rw [hp]
      simp [oversizedParam, truthyOpt]
    have hmem : "Page must be a positive number" ∈
        validatePaginationParams q.page q.limit := by
      rw [validatePaginationParams.eq_def, hp]
      apply List.mem_append_left
      apply List.mem_append_left
      decide
    have hpos : (validatePaginationParams q.page q.limit).length > 0 :=
      List.length_pos.mpr (List.ne_nil_of_mem hmem)
    refine ⟨?_, hmem⟩
    simp only [getPostsHandler]
    rw [if_neg (by simp [hpage]), if_neg (by simp [hlim]), if_pos hpos]
  · intro hl hpage
    have hlim : oversizedParam q.limit = false := by
      rw [hl]
      simp [oversizedParam, truthyOpt]
    have hmem : "Limit must be a positive number" ∈
        validatePaginationParams q.page q.limit := by
      rw [validatePaginationParams.eq_def, hl]
      apply List.mem_append_right
      apply List.mem_append_left
      decide
    have hpos : (validatePaginationParams q.page q.limit).length > 0 :=
      List.length_pos.mpr (List.ne_nil_of_mem hmem)
    refine ⟨?_, hmem⟩
    simp only [getPostsHandler]
    rw [if_neg (by simp [hpage]), if_neg (by simp [hlim]), if_pos hpos]

theorem c10_empty_params_rejected_witness :
    (getPostsHandler [] ⟨some "", some "", none, none⟩ =
        .invalidParams (validatePaginationParams (some "") (some "")) ∧
      "Page must be a positive number" ∈ validatePaginationParams (some "") (some "")) ∧
    (getPostsHandler [] ⟨some "", some "", none, none⟩ =
        .invalidParams (validatePaginationParams (some "") (some "")) ∧
      "Limit must be a positive number" ∈ validatePaginationParams (some "") (some "")) :=
  ⟨(c10_empty_params_rejected [] ⟨some "", some "", none, none⟩).1 rfl (by decide),
   (c10_empty_params_rejected [] ⟨some "", some "", none, none⟩).2 rfl (by decide)⟩

/-! ## Claim theorems: id lookup (C7) -/

/-- C7 fails as stated: `" "` is not parseable as an integer, so the claim
requires the "invalid id" failure, but `Number(" ")` is 0 (not NaN) and the
NaN result of `parseInt(" ", 10)` passes the range check (NaN comparisons
are false), so the handler reports not-found with `requestedId: NaN`;
likewise `"1.5"` is not an integer, yet the handler looks up
`parseInt("1.5", 10) = 1` and returns post 1. -/
theorem c7_counterexample :
    getPostById [] " " = .notFound none ∧
    getPostById [⟨1, "t", "d", "c", "g"⟩] "1.5" = .ok ⟨1, "t", "d", "c", "g"⟩ :=
  ⟨by decide, by decide⟩

theorem find?_false_none (l : List Post) : l.find? (fun _ => false) = none := by
  induction l with
  | nil => rfl
  | cons a t ih => simpa [List.find?_cons] using ih

/-- C7, amended: the lookup fails with "invalid id" iff the id string is
empty, or `Number(id)` is NaN, or `parseInt(id, 10)` yields a value outside
[1, 1000000]; an id whose `Number` is a number but whose `parseInt` is NaN
(such as " " or ".5") passes both checks and reports not-found with
`requestedId: NaN`.  When the checks pass with `parseInt(id, 10) = v`, the
handler returns the first post whose id equals `v`, and a not-found error
carrying `v` when none matches. -/
theorem c7_id_lookup (blogPosts : List Post) (id : String) :
    ((∃ m, getPostById blogPosts id = .invalidId m) ↔
      (id = "" ∨ (jsNumber id).isNaN = true ∨
        (∃ v, jsParseInt id = some v ∧ (v < 1 ∨ 1000000 < v)))) ∧
    (∀ v : ℤ, jsParseInt id = some v → ¬(id = "" ∨ (jsNumber id).isNaN = true) →
      ¬(v < 1 ∨ 1000000 < v) →
      getPostById blogPosts id =
        (match blogPosts.find? (fun p => p.id == v) with
          | some p => PostByIdResult.ok p
          | none => PostByIdResult.notFound (some v))) := by
  by_cases h1 : id = "" ∨ (jsNumber id).isNaN = true
  · have hres : getPostById blogPosts id = .invalidId "Post ID must be a valid number" := by
      rw [getPostById.eq_def, if_pos h1]
    constructor
    · simp only [hres]
      constructor
      · intro _
        rcases h1 with h | h
        · exact Or.inl h
        · exact Or.inr (Or.inl h)
      · intro _
        exact ⟨_, rfl⟩
    · intro v _ h1' _
      exact absurd h1 h1'
  · rcases hpi : jsParseInt id with _ | v
    · have hres : getPostById blogPosts id = .notFound none := by
        rw [getPostById.eq_def, if_neg h1]
        simp only [hpi]
        rw [if_neg (by simp), find?_false_none]
      constructor
      · simp only [hres]
        constructor
        · rintro ⟨m, hm⟩
          exact PostByIdResult.noConfusion hm
        · rintro (h | h | ⟨w, hw, -⟩)
          · exact absurd (Or.inl h) h1
          · exact absurd (Or.inr h) h1
          · exact Option.noConfusion hw
      · intro w hw
        exact absurd hw (by simp)
    · by_cases h2 : v < 1 ∨ 1000000 < v
      · have hres : getPostById blogPosts id = .invalidId "Post ID out of valid range" := by
          rw [getPostById.eq_def, if_neg h1]
          simp only [hpi]
          rw [if_pos (by rcases h2 with h | h <;> simp [h])]
        constructor
        · simp only [hres]
          constructor
          · intro _
            exact Or.inr (Or.inr ⟨v, rfl, h2⟩)
          · intro _
            exact ⟨_, rfl⟩
        · intro w hw _ hn2
          obtain rfl : v = w := Option.some.inj hw
          exact absurd h2 hn2
      · have hres : getPostById blogPosts id =
            (match blogPosts.find? (fun p => p.id == v) with
              | some p => PostByIdResult.ok p
              | none => PostByIdResult.notFound (some v)) := by
          rw [getPostById.eq_def, if_neg h1]
          simp only [hpi]
          rw [if_neg (by simp only [Bool.or_eq_true, decide_eq_true_eq]; exact h2)]
          rcases hf : blogPosts.find? (fun p => p.id == v) with _ | p <;> rw [hf]
        constructor
        · simp only [hres]
          constructor
          · rintro ⟨m, hm⟩
            rcases hf : blogPosts.find? (fun p => p.id == v) with _ | p <;>
              rw [hf] at hm <;> exact PostByIdResult.noConfusion hm
          · rintro (h | h | ⟨w, hw, hrange⟩)
            · exact absurd (Or.inl h) h1
            · exact absurd (Or.inr h) h1
            · obtain rfl : v = w := Option.some.inj hw
              exact absurd hrange h2
        · intro w hw _ _
          obtain rfl : v = w := Option.some.inj hw
          exact hres

theorem c7_id_lookup_witness :
    jsParseInt "7" = some 7 ∧
    ¬(("7" : String) = "" ∨ (jsNumber "7").isNaN = true) ∧
    ¬((7 : ℤ) < 1 ∨ 1000000 < (7 : ℤ)) ∧
    getPostById [⟨1, "t", "d", "c", "g"⟩] "7" =
      (match [(⟨1, "t", "d", "c", "g"⟩ : Post)].find? (fun p => p.id == (7 : ℤ)) with
        | some p => PostByIdResult.ok p
        | none => PostByIdResult.notFound (some 7)) :=
  ⟨by decide, by decide, by decide,
    (c7_id_lookup [⟨1, "t", "d", "c", "g"⟩] "7").2 7 (by decide) (by decide) (by decide)⟩

/-! ## Claim theorems: immutability (C8) -/

theorem jsSlice_sublist (l : List Post) (s e : JSNum) : (jsSlice l s e).Sublist l :=
  (List.drop_sublist _ _).trans (List.take_sublist _ _)

theorem applyCategoryFilter_sublist (posts : List Post) (c : Option String) :
    (applyCategoryFilter posts c).Sublist posts := by
  simp only [applyCategoryFilter]
  split
  · split
    · exact List.filter_sublist posts
    · exact List.Sublist.refl posts
  · exact List.Sublist.refl posts

theorem applyKeywordFilter_sublist (posts f : List Post) (k : Option String)
    (h : applyKeywordFilter posts k = some f) : f.Sublist posts := by
  simp only [applyKeywordFilter] at h
  split at h
  · split at h
    · cases h
      exact List.filter_sublist posts
    · split at h
      · exact Option.noConfusion h
      · cases h
        exact List.Sublist.refl posts
  · cases h
    exact List.Sublist.refl posts

theorem getPostsHandler_posts_sublist (posts : List Post) (q : Query) :
    (resultPosts (getPostsHandler posts q)).Sublist posts := by
  simp only [getPostsHandler]
  split
  · simp [resultPosts]
  · split
    · simp [resultPosts]
    · split
      · simp [resultPosts]
      · split
        · simp [resultPosts]
        · rename_i f hkw
          simp only [resultPosts, jsPaginate]
          exact (jsSlice_sublist f _ _).trans
            ((applyKeywordFilter_sublist _ f q.keyword hkw).trans
              (applyCategoryFilter_sublist posts q.category))

/-- C8: no sequence of `/posts` or `/posts/:id` invocations changes the
shared collection — in the state-passing model of the handlers (which only
copy and derive new arrays) the collection threaded through any call
sequence is returned unchanged — and the posts a successful listing returns
are a sublist of the stored collection itself: the original records in
their original order, not sanitized copies. -/
theorem c8_no_mutation (calls : List ApiCall) (blogPosts : List Post) :
    runCalls calls blogPosts = blogPosts ∧
    (∀ q : Query, (resultPosts (getPostsHandler blogPosts q)).Sublist blogPosts) := by
  constructor
  · induction calls with
    | nil => rfl
    | cons c cs ih =>
      have hstep : (runCall c blogPosts).2 = blogPosts := by cases c <;> rfl
      show (c :: cs).foldl (fun s c => (runCall c s).2) blogPosts = blogPosts
      rw [List.foldl_cons, hstep]
      exact ih
  · intro q
    exact getPostsHandler_posts_sublist blogPosts q

/-! ## Claim theorems: the two revisions (C9) -/

/-- C9: the two `/posts` handler revisions in the source are not
equivalent: on `page=2000000` (a pagination value above 1,000,000) the
hardened revision reports the oversized failure with status 400 while the
earlier revision reports it with status 500; and on `limit=0` the earlier
revision silently substitutes the default limit 6 and succeeds while the
hardened revision rejects the request as an invalid-input validation
failure. -/
theorem c9_revisions_differ :
    statusNew (getPostsHandler [] ⟨some "2000000", none, none, none⟩) = 400 ∧
    statusOld (getPostsHandlerOld [] ⟨some "2000000", none, none, none⟩) = 500 ∧
    getPostsHandler [] ⟨none, some "0", none, none⟩ =
      .invalidParams ["Limit must be a positive number"] ∧
    getPostsHandlerOld [] ⟨none, some "0", none, none⟩ =
      .ok ⟨0, .val 0, .val 1, .val 6, [], none, none⟩ :=
  ⟨by decide, by decide, by decide, by decide⟩

/-! ## `jsPaginate` agrees with `paginate` at integer values -/

theorem drop_take_clamp (l : List Post) (s e : ℕ) :
    (l.take (min e l.length)).drop (min s l.length) = (l.take e).drop s := by
  rcases le_total e l.length with he | he
  · rw [min_eq_left he]
    rcases le_total s l.length with hs | hs
    · rw [min_eq_left hs]
    · rw [min_eq_right hs, List.drop_eq_nil_of_le, List.drop_eq_nil_of_le]
      · rw [List.length_take]
        omega
      · rw [List.length_take]
        omega
  · rw [min_eq_right he, List.take_length, List.take_of_length_le he]
    rcases le_total s l.length with hs | hs
    · rw [min_eq_left hs]
    · rw [min_eq_right hs, List.drop_eq_nil_of_le le_rfl, List.drop_eq_nil_of_le hs]

theorem jsToIdx_natCast (s N : ℕ) : jsToIdx (.val (s : ℚ)) N = min s N := by
  simp only [jsToIdx]
  rw [if_neg (not_lt.mpr (by positivity : (0 : ℚ) ≤ (s : ℚ)))]
  have hfl : Rat.floor (s : ℚ) = (s : ℤ) := by
    rw [show Rat.floor (s : ℚ) = ⌊(s : ℚ)⌋ from rfl, Int.floor_natCast]
  rw [hfl, if_neg (not_lt.mpr (Int.natCast_nonneg s)), Int.toNat_natCast]

/-- The handler's pagination stage `jsPaginate`, applied to integer
effective values, computes exactly the integer-level `paginate`. -/
theorem paginate_eq_jsPaginate (filtered : List Post) (P L : ℕ)
    (hP : 1 ≤ P) (hL : 1 ≤ L) :
    (jsPaginate filtered (.val P) (.val L)).totalPosts =
        (paginate filtered P L).totalPosts ∧
    (jsPaginate filtered (.val P) (.val L)).totalPages =
        .val ((paginate filtered P L).totalPages : ℚ) ∧
    (jsPaginate filtered (.val P) (.val L)).currentPage =
        .val ((paginate filtered P L).currentPage : ℚ) ∧
    (jsPaginate filtered (.val P) (.val L)).limit =
        .val ((paginate filtered P L).limit : ℚ) ∧
    (jsPaginate filtered (.val P) (.val L)).posts = (paginate filtered P L).posts ∧
    (jsPaginate filtered (.val P) (.val L)).hasNextPage =
        (paginate filtered P L).hasNextPage ∧
    (jsPaginate filtered (.val P) (.val L)).hasPreviousPage =
        (paginate filtered P L).hasPreviousPage ∧
    (jsPaginate filtered (.val P) (.val L)).nextPage =
        (paginate filtered P L).nextPage.map (fun n => .val (n : ℚ)) ∧
    (jsPaginate filtered (.val P) (.val L)).previousPage =
        (paginate filtered P L).previousPage.map (fun n => .val (n : ℚ)) := by
  have hLq : ((L : ℚ)) ≠ 0 := by
    have h0 : (0 : ℚ) < (L : ℚ) := by exact_mod_cast hL
    exact h0.ne'
  have hstart : JSNum.mul (JSNum.sub (.val (P : ℚ)) (.val 1)) (.val (L : ℚ)) =
      .val (((P - 1) * L : ℕ) : ℚ) := by
    simp only [JSNum.sub, JSNum.mul, qsub_eq, qmul_eq]
    congr 1
    rw [Nat.cast_mul, Nat.cast_sub hP]
    push_cast
    ring
  have hend : JSNum.add (.val (((P - 1) * L : ℕ) : ℚ)) (.val (L : ℚ)) =
      .val (((P - 1) * L + L : ℕ) : ℚ) := by
    simp only [JSNum.add, qadd_eq]
    congr 1
    push_cast
    ring
  have hceilnn : 0 ≤ (qdiv ((filtered.length : ℕ) : ℚ) ((L : ℕ) : ℚ)).ceil := by
    rw [qdiv_eq, rat_ceil_eq]
    exact Int.ceil_nonneg (by positivity)
  have hdiv : (JSNum.val (filtered.length : ℚ)).div (.val (L : ℚ)) =
      .val (qdiv (filtered.length : ℚ) (L : ℚ)) := by
    simp only [JSNum.div]
    rw [if_neg (by simp [hLq])]
  have htp : JSNum.ceil ((JSNum.val (filtered.length : ℚ)).div (.val (L : ℚ))) =
      .val (((qdiv (filtered.length : ℚ) (L : ℚ)).ceil.toNat : ℕ) : ℚ) := by
    rw [hdiv]
    simp only [JSNum.ceil]
    congr 1
    rw [← Int.toNat_of_nonneg hceilnn]
    push_cast
    rfl
  have hlt1 : (JSNum.val (((P - 1) * L + L : ℕ) : ℚ)).ltB (.val (filtered.length : ℚ)) =
      decide ((P - 1) * L + L < filtered.length) := by
    simp only [JSNum.ltB]
    exact decide_eq_decide.mpr Nat.cast_lt
  have hlt2 : (JSNum.val 0).ltB (.val (((P - 1) * L : ℕ) : ℚ)) =
      decide (0 < (P - 1) * L) := by
    simp only [JSNum.ltB]
    refine decide_eq_decide.mpr ?_
    exact_mod_cast Iff.rfl
  refine ⟨rfl, ?_, rfl, rfl, ?_, ?_, ?_, ?_, ?_⟩
  · simp only [jsPaginate, paginate]
    exact htp
  · simp only [jsPaginate, paginate, jsSlice]
    rw [hstart, hend, jsToIdx_natCast, jsToIdx_natCast]
    exact drop_take_clamp filtered _ _
  · simp only [jsPaginate, paginate]
    rw [hstart, hend, hlt1]
  · simp only [jsPaginate, paginate]
    rw [hstart]
    exact hlt2
  · simp only [jsPaginate, paginate]
    rw [hstart, hend, hlt1]
    by_cases h : (P - 1) * L + L < filtered.length
    · rw [if_pos (by simpa using h), if_pos h]
      simp only [Option.map_some, JSNum.add, qadd_eq]
      congr 2
      push_cast
      ring
    · rw [if_neg (by simpa using h), if_neg h]
      rfl
  · simp only [jsPaginate, paginate]
    rw [hstart, hlt2]
    by_cases h : 0 < (P - 1) * L
    · rw [if_pos (by simpa using h), if_pos h]
      simp only [Option.map_some, JSNum.sub, qsub_eq]
      congr 2
      rw [Nat.cast_sub hP]
      push_cast
      ring
    · rw [if_neg (by simpa using h), if_neg h]
      rfl

